import Mathlib

/-!
Verification of `update_research_data.py` (faculty-publications repository).

The script is a linear ETL pass: read spreadsheet rows (name, profile URL),
extract a Google Scholar user id from each URL, fetch and normalize each
author's publications, sort them by year descending, truncate to a configured
count, and serialize the flattened records to JSON.

Embedding conventions:
* Python strings are modelled as `List Char`.  All helper functions use
  structural (or fuel-free) recursion so that concrete computations reduce
  with `decide` / `rfl`.
* Heterogeneous Python values that flow through the publication dictionaries
  are modelled with `PyVal` (int, str, None).
* Code that can raise is modelled in `Except (List Char)`; a `try/except`
  block is modelled by matching on the `Except` result.
* `urllib.parse.urlsplit` / `parse_qsl` are modelled from CPython's reference
  implementation at the character level.  Percent-decoding is modelled
  byte-per-escape (accurate for ASCII escapes; the UTF-8 multi-byte decode of
  non-ASCII escape sequences is elided), and the version-dependent bracketed
  host / NFKC netloc validations are elided.  `str.isdigit` and `int(...)`
  are modelled for ASCII digits.
-/

deriving instance DecidableEq for Except

namespace FacultyPubs

/-- Model of a dynamically-typed Python value as it appears in the
publication dictionaries returned by the external `scholarly` collaborator:
an integer, a string, or `None`. -/
inductive PyVal where
  | vInt (n : Int)
  | vStr (s : List Char)
  | vNone
  deriving DecidableEq, Repr

/-- Python truthiness for `PyVal` (`bool(x)`): `None` and `0` and `""` are
falsy, everything else truthy. -/
def pyTruthy : PyVal → Bool
  | .vNone => false
  | .vInt n => n != 0
  | .vStr s => !s.isEmpty

/-- Python `a or b`: `a` if truthy, else `b`. -/
def pyOr (a b : PyVal) : PyVal :=
  if pyTruthy a then a else b

/-! ## Character-list string helpers (Python `str` operations) -/

/-- Python `sub in s` (contiguous substring test). -/
def containsSub (s sub : List Char) : Bool :=
  match s with
  | [] => sub.isEmpty
  | _ :: rest => sub.isPrefixOf s || containsSub rest sub

/-- Python `s.split(sep, 1)` when `sep` occurs: returns the pieces before and
after the first occurrence of `sep`; `none` when `sep` does not occur.
`sep` is assumed non-empty (Python raises on an empty separator). -/
def splitFirst (sep : List Char) : List Char → Option (List Char × List Char)
  | [] => none
  | c :: rest =>
    if sep.isPrefixOf (c :: rest) then
      some ([], (c :: rest).drop sep.length)
    else
      match splitFirst sep rest with
      | some (a, b) => some (c :: a, b)
      | none => none

/-- Python `s.split(c)` for a single-character separator: always returns a
non-empty list of (possibly empty) pieces. -/
def splitChar (c : Char) : List Char → List (List Char)
  | [] => [[]]
  | x :: xs =>
    if x = c then [] :: splitChar c xs
    else
      match splitChar c xs with
      | [] => [[x]]
      | h :: t => (x :: h) :: t

/-- Hexadecimal digit test (as in `urllib.parse`'s `_hexdig`). -/
def isHexDigit (c : Char) : Bool :=
  c.isDigit || (('a' ≤ c && c ≤ 'f') || ('A' ≤ c && c ≤ 'F'))

/-- Value of a hexadecimal digit. -/
def hexVal (c : Char) : Nat :=
  if c.isDigit then c.toNat - '0'.toNat
  else if 'a' ≤ c && c ≤ 'f' then c.toNat - 'a'.toNat + 10
  else c.toNat - 'A'.toNat + 10

/-- `urllib.parse.unquote_plus` restricted to single-byte escapes: `+`
becomes a space and `%XX` (two hex digits) becomes the character with code
`XX`; a `%` not followed by two hex digits is kept literally.  (CPython
additionally UTF-8-decodes consecutive escaped bytes; for ASCII escapes the
behaviour is identical.) -/
def unquotePlus : List Char → List Char
  | [] => []
  | '+' :: rest => ' ' :: unquotePlus rest
  | '%' :: a :: b :: rest₂ =>
    if isHexDigit a && isHexDigit b then
      Char.ofNat (16 * hexVal a + hexVal b) :: unquotePlus rest₂
    else '%' :: unquotePlus (a :: b :: rest₂)
  | '%' :: rest => '%' :: unquotePlus rest
  | c :: rest => c :: unquotePlus rest

/-! ## `urllib.parse.urlsplit` -/

/-- WHATWG C0-control-or-space class stripped from both ends of the URL. -/
def isC0orSpace (c : Char) : Bool := c.toNat ≤ 0x20

/-- Characters allowed in a URL scheme after the initial letter. -/
def isSchemeChar (c : Char) : Bool :=
  c.isAlpha || c.isDigit || c = '+' || c = '-' || c = '.'

/-- Result of `urlsplit` (the script only consumes `query`). -/
structure UrlSplitResult where
  scheme : List Char
  netloc : List Char
  path : List Char
  query : List Char
  fragment : List Char
  deriving DecidableEq, Repr

/-- Scheme removal step of `urlsplit`: the text before the first `:` is the
scheme when it starts with an ASCII letter and consists of scheme
characters only. -/
def splitScheme (url : List Char) : List Char × List Char :=
  match splitFirst [':'] url with
  | some (before, after) =>
    match before with
    | [] => ([], url)
    | c :: cs =>
      if c.toNat ≤ 0x7f && c.isAlpha && cs.all isSchemeChar then
        ((c :: cs).map Char.toLower, after)
      else ([], url)
  | none => ([], url)

/-- Netloc removal step of `urlsplit`: after a leading `//`, the netloc
runs up to the first `/`, `?` or `#`; a `[` / `]` bracket imbalance raises
`ValueError`. -/
def splitNetloc (url : List Char) :
    Except (List Char) (List Char × List Char) :=
  match url with
  | '/' :: '/' :: rest =>
    let nl := rest.takeWhile fun c => !(c = '/' || c = '?' || c = '#')
    if (nl.contains '[' && !nl.contains ']') ||
       (nl.contains ']' && !nl.contains '[') then
      .error "Invalid IPv6 URL".data
    else
      .ok (nl, rest.dropWhile fun c => !(c = '/' || c = '?' || c = '#'))
  | _ => .ok ([], url)

/-- `urllib.parse.urlsplit`: strip C0 controls/space from the ends, remove
tab/CR/LF, split off `scheme:`, `//netloc` (raising `ValueError` on a `[`
/ `]` bracket imbalance in the netloc), `#fragment`, and `?query`. -/
def urlsplitE (url₀ : List Char) : Except (List Char) UrlSplitResult :=
  let url₁ := ((url₀.dropWhile isC0orSpace).reverse.dropWhile isC0orSpace).reverse
  let url₂ := url₁.filter fun c => !(c = '\t' || c = '\r' || c = '\n')
  let sr := splitScheme url₂
  match splitNetloc sr.2 with
  | .error e => .error e
  | .ok (netloc, url₄) =>
    let fr :=
      match splitFirst ['#'] url₄ with
      | some (before, after) => (before, after)
      | none => (url₄, ([] : List Char))
    let pq :=
      match splitFirst ['?'] fr.1 with
      | some (before, after) => (before, after)
      | none => (fr.1, ([] : List Char))
    .ok { scheme := sr.1, netloc := netloc, path := pq.1,
          query := pq.2, fragment := fr.2 }

/-! ## `urllib.parse.parse_qs` / `parse_qsl` -/

/-- `urllib.parse.parse_qsl` with default arguments (`keep_blank_values =
False`, separator `&`): split on `&`, skip empty chunks, split each chunk on
the first `=` (chunks without `=` or with an empty value are dropped), and
unquote names and values. -/
def parse_qsl (qs : List Char) : List (List Char × List Char) :=
  (splitChar '&' qs).filterMap fun nameValue =>
    if nameValue.isEmpty then none
    else
      match splitFirst ['='] nameValue with
      | none => none
      | some (n, v) =>
        if v.isEmpty then none
        else some (unquotePlus n, unquotePlus v)

/-- `parse_qs(qs)[k][0]` when key `k` is present: the value of the first
pair whose (unquoted) name is `k`; `none` when `k` is absent (`k in qs`
false). -/
def qsLookup (pairs : List (List Char × List Char)) (k : List Char) :
    Option (List Char) :=
  match pairs with
  | [] => none
  | (n, v) :: rest => if n = k then some v else qsLookup rest k

/-! ## `extract_scholar_userid` -/

/-- The literal `"user="` scanned for by the raw-string fallback. -/
def userEq : List Char := "user=".data

/-- The query-parameter key `"user"`. -/
def userKey : List Char := "user".data

/-- `part.split("user=")[1].split("&")[0]`: the text after the first
occurrence of `user=` (up to its next occurrence), cut at the first `&`.
Only called on parts that contain `user=`. -/
def userFallbackValue (part : List Char) : List Char :=
  match splitFirst userEq part with
  | none => []
  | some (_, post) =>
    let seg :=
      match splitFirst userEq post with
      | some (a, _) => a
      | none => post
    match splitChar '&' seg with
    | [] => []
    | h :: _ => h

/-- The `for part in url.split("?")` fallback loop: the fallback value of
the first part containing `user=`, if any. -/
def fallbackScan : List (List Char) → Option (List Char)
  | [] => none
  | p :: rest =>
    if containsSub p userEq then some (userFallbackValue p)
    else fallbackScan rest

/-- Body of the `try` block of `extract_scholar_userid`: parse the URL
(which may raise), look for a `user` query parameter, else run the
raw-string fallback over `url.split("?")`. -/
def extract_userid_try (url : List Char) :
    Except (List Char) (Option (List Char)) :=
  match urlsplitE url with
  | .error e => .error e
  | .ok sp =>
    match qsLookup (parse_qsl sp.query) userKey with
    | some v => .ok (some v)
    | none => .ok (fallbackScan (splitChar '?' url))

/-- `extract_scholar_userid`: the `try` body with any exception degraded to
`None`. -/
def extract_scholar_userid (url : List Char) : Option (List Char) :=
  match extract_userid_try url with
  | .ok r => r
  | .error _ => none

/-! ## `fetch_author_pubs`

The external `scholarly` collaborator (`search_author_id` + `fill`) is
opaque; `fetch_author_pubs` takes its outcome as an explicit argument
`resp`: either an exception or the author's raw publication list. -/

/-- One raw publication entry as returned by the external source:
`pub.get("bib", {})` and `pub.get("num_citations", 0)` read these two keys,
so the model records each as an optional field (absent ⇒ the `get`
default). -/
structure RawPub where
  bib : Option (List (List Char × PyVal))
  num_citations : Option PyVal
  deriving DecidableEq, Repr

/-- Python `d.get(k)` on a string-keyed dict (keys are unique; the first
match is the only one). -/
def dictGet (d : List (List Char × PyVal)) (k : List Char) : Option PyVal :=
  match d with
  | [] => none
  | (n, v) :: rest => if n = k then some v else dictGet rest k

/-- Python `str(x)` for the modelled values (ASCII; `str` of an `int` is its
decimal rendering, with a leading `-` when negative). -/
def pyStrOf : PyVal → List Char
  | .vInt n => (toString n).data
  | .vStr s => s
  | .vNone => "None".data

/-- Python `s.isdigit()` restricted to ASCII: non-empty and all characters
decimal digits. -/
def pyIsDigit (s : List Char) : Bool :=
  !s.isEmpty && s.all Char.isDigit

/-- Numeric value of an ASCII digit string. -/
def digitsToInt (s : List Char) : Int :=
  s.foldl (fun acc c => 10 * acc + (Int.ofNat (c.toNat - '0'.toNat))) 0

/-- Python whitespace stripped by `int(str)`. -/
def isPySpace (c : Char) : Bool :=
  c = ' ' || c = '\t' || c = '\n' || c = '\r' || c = '\x0b' || c = '\x0c'

/-- Python `int(s)` for a string: strip whitespace, allow one sign, then a
non-empty ASCII digit run; otherwise `ValueError`.  (Underscore digit
grouping and non-ASCII decimal digits are elided.) -/
def pyIntOfStr (s : List Char) : Except (List Char) Int :=
  let t := ((s.dropWhile isPySpace).reverse.dropWhile isPySpace).reverse
  match t with
  | '-' :: ds =>
    if pyIsDigit ds then .ok (-(digitsToInt ds))
    else .error "ValueError: invalid literal for int".data
  | '+' :: ds =>
    if pyIsDigit ds then .ok (digitsToInt ds)
    else .error "ValueError: invalid literal for int".data
  | ds =>
    if pyIsDigit ds then .ok (digitsToInt ds)
    else .error "ValueError: invalid literal for int".data

/-- Python `int(x)` for the modelled values; raises `TypeError` on `None`. -/
def pyInt : PyVal → Except (List Char) Int
  | .vInt n => .ok n
  | .vStr s => pyIntOfStr s
  | .vNone => .error "TypeError: int() argument is None".data

/-- `int(year) if str(year).isdigit() else year`: coerce clean non-negative
integer strings (and non-negative ints) to `int`, preserve anything else. -/
def normalizeYear (y : PyVal) : PyVal :=
  if pyIsDigit (pyStrOf y) then
    match y with
    | .vInt n => .vInt n
    | .vStr s => .vInt (digitsToInt s)
    | .vNone => .vNone
  else y

/-- `bib.get("pub_year") or bib.get("year") or 0`. -/
def rawYearOf (bib : List (List Char × PyVal)) : PyVal :=
  pyOr (pyOr ((dictGet bib "pub_year".data).getD .vNone)
             ((dictGet bib "year".data).getD .vNone))
       (.vInt 0)

/-- `bib.get("venue") or bib.get("journal") or bib.get("publisher") or ""`. -/
def rawVenueOf (bib : List (List Char × PyVal)) : PyVal :=
  pyOr (pyOr (pyOr ((dictGet bib "venue".data).getD .vNone)
                   ((dictGet bib "journal".data).getD .vNone))
             ((dictGet bib "publisher".data).getD .vNone))
       (.vStr [])

/-- `f"https://scholar.google.com/citations?user={user_id}"`. -/
def canonicalLink (user_id : List Char) : List Char :=
  "https://scholar.google.com/citations?user=".data ++ user_id

/-- One normalized publication dict as built in the loop body of
`fetch_author_pubs`. -/
structure PubRec where
  title : PyVal
  journal : PyVal
  year : PyVal
  citations : Int
  link : List Char
  deriving DecidableEq, Repr

/-- `int(citations) if citations else 0`; the only step of the loop body
that can raise (`int` of a truthy non-numeric value). -/
def pyCitations (c₀ : PyVal) : Except (List Char) Int :=
  if pyTruthy c₀ then pyInt c₀ else .ok 0

/-- The loop body of `fetch_author_pubs` for one publication: field
defaulting, year/citation coercion, and the profile link choice. -/
def normalizePub (user_id scholar_url : List Char) (pub : RawPub) :
    Except (List Char) PubRec :=
  match pyCitations (pub.num_citations.getD (.vInt 0)) with
  | .error e => .error e
  | .ok c =>
    .ok { title := (dictGet (pub.bib.getD []) "title".data).getD (.vStr "N/A".data),
          journal := rawVenueOf (pub.bib.getD []),
          year := normalizeYear (rawYearOf (pub.bib.getD [])),
          citations := c,
          link := if !user_id.isEmpty then canonicalLink user_id else scholar_url }

/-! ### `sorted(structured, key=lambda x: (x.get("Year") or 0), reverse=True)` -/

/-- The sort key: `x.get("Year") or 0`. -/
def sortKey (r : PubRec) : PyVal := pyOr r.year (.vInt 0)

/-- Python string `<`: lexicographic by code point. -/
def strLtB : List Char → List Char → Bool
  | [], [] => false
  | [], _ :: _ => true
  | _ :: _, [] => false
  | a :: as, b :: bs =>
    if a.toNat < b.toNat then true
    else if b.toNat < a.toNat then false
    else strLtB as bs

/-- Python `<` on sort keys, as a Bool for the pairs Python can compare:
`int < int` and `str < str`.  A cross-type or `None` comparison raises
`TypeError` in Python; those pairs are excluded by the guard in
`pySortPubsDesc`, and the function is `false` on them. -/
def keyLtB : PyVal → PyVal → Bool
  | .vInt a, .vInt b => a < b
  | .vStr a, .vStr b => strLtB a b
  | _, _ => false

def isIntV : PyVal → Bool
  | .vInt _ => true
  | _ => false

def isStrV : PyVal → Bool
  | .vStr _ => true
  | _ => false

def isNoneV : PyVal → Bool
  | .vNone => true
  | _ => false

/-- Insert into a descending-sorted list, before the first element the new
element is not less than (ties keep the earlier element first, matching the
stability of Python `sorted` with `reverse=True`). -/
def insertDesc (x : PubRec) : List PubRec → List PubRec
  | [] => [x]
  | y :: ys =>
    if keyLtB (sortKey x) (sortKey y) then y :: insertDesc x ys
    else x :: y :: ys

/-- Stable descending sort by `sortKey` (extensionally equal to Python
`sorted(..., reverse=True)` whenever all keys are mutually comparable,
since a stable sort is uniquely determined). -/
def insertionSortDesc : List PubRec → List PubRec
  | [] => []
  | x :: xs => insertDesc x (insertionSortDesc xs)

/-- `sorted(structured, key=..., reverse=True)` with Python exception
semantics: a list of length ≥ 2 whose keys mix `int` and `str` (or contain
`None`) forces at least one `<` between values Python cannot compare —
every comparison sort must compare across the groups at least once — so the
call raises `TypeError`; on ≤ 1 element no comparison happens; otherwise
the result is the stable descending sort. -/
def pySortPubsDesc (l : List PubRec) : Except (List Char) (List PubRec) :=
  if l.length ≤ 1 then .ok l
  else if (l.map sortKey).any isNoneV ||
      ((l.map sortKey).any isIntV && (l.map sortKey).any isStrV) then
    .error "TypeError: unsupported comparison between int and str".data
  else .ok (insertionSortDesc l)

/-- The `for pub in pubs` loop building `structured`, with the first raised
exception propagated. -/
def mapNormalize (user_id scholar_url : List Char) :
    List RawPub → Except (List Char) (List PubRec)
  | [] => .ok []
  | p :: ps =>
    match normalizePub user_id scholar_url p with
    | .error e => .error e
    | .ok r =>
      match mapNormalize user_id scholar_url ps with
      | .error e => .error e
      | .ok rs => .ok (r :: rs)

/-- Body of the `try` block of `fetch_author_pubs`: obtain the raw
publication list, normalize each entry, sort by year descending, keep the
first `n`. -/
def fetchBody (user_id scholar_url : List Char)
    (resp : Except (List Char) (List RawPub)) (n : Nat) :
    Except (List Char) (List PubRec) :=
  match resp with
  | .error e => .error e
  | .ok pubs =>
    match mapNormalize user_id scholar_url pubs with
    | .error e => .error e
    | .ok structured =>
      match pySortPubsDesc structured with
      | .error e => .error e
      | .ok sortedList => .ok (sortedList.take n)

/-- `f"⚠️ Error fetching publications for user {user_id}: {e}"`. -/
def warnMsg (user_id e : List Char) : List Char :=
  "⚠️ Error fetching publications for user ".data ++ user_id ++
    ": ".data ++ e

/-- `fetch_author_pubs`: the `try` body, with any exception caught, a
warning naming the user printed (modelled as the second component), and the
empty list returned. -/
def fetch_author_pubs (user_id scholar_url : List Char)
    (resp : Except (List Char) (List RawPub)) (n : Nat) :
    List PubRec × List (List Char) :=
  match fetchBody user_id scholar_url resp n with
  | .ok r => (r, [])
  | .error e => ([], [warnMsg user_id e])

/-! ## `main`

The spreadsheet is modelled as its column-name list plus its rows (each a
(Faculty Name, Google Scholar Profile URL) pair of strings); the external
source as an oracle from user id to `fetch` outcome.  `main`'s progress
prints are elided; its diagnostics and warnings are the second component of
the result.  The first component models the output file: `none` for the
graceful early return on missing columns (no file written), `some rs` for
the single `json.dump` of the accumulated records. -/

/-- `PAPERS_PER_FACULTY` configuration constant. -/
def PAPERS_PER_FACULTY : Nat := 5

/-- `expected_cols = ["Faculty Name", "Google Scholar Profile URL"]`. -/
def expectedCols : List (List Char) :=
  ["Faculty Name".data, "Google Scholar Profile URL".data]

/-- `all(col in df.columns for col in expected_cols)`. -/
def colsOk (cols : List (List Char)) : Bool :=
  expectedCols.all fun c => cols.contains c

/-- Python single-quote character (kept out of string literals). -/
def pyQuote : Char := Char.ofNat 39

/-- Python `repr` of a list of strings, as printed by
`print(f"... {list(df.columns)}")` (escaping inside the names elided). -/
def reprStrList (xs : List (List Char)) : List Char :=
  ['['] ++ List.intercalate ", ".data (xs.map fun s => pyQuote :: (s ++ [pyQuote])) ++ [']']

/-- `f"⚠️ Missing expected columns. Found: {list(df.columns)}"`. -/
def missingColsMsg (cols : List (List Char)) : List Char :=
  "⚠️ Missing expected columns. Found: ".data ++ reprStrList cols

/-- `f"Please ensure your Excel has columns: {expected_cols}"`. -/
def ensureColsMsg : List Char :=
  "Please ensure your Excel has columns: ".data ++ reprStrList expectedCols

/-- `f"⚠️ Skipping {name}: Invalid Google Scholar URL."`. -/
def skipMsg (name : List Char) : List Char :=
  "⚠️ Skipping ".data ++ name ++ ": Invalid Google Scholar URL.".data

/-- One flattened output record appended to `results` (six keys). -/
structure OutRec where
  facultyName : List Char
  title : PyVal
  journal : PyVal
  year : PyVal
  citations : Int
  link : List Char
  deriving DecidableEq, Repr

/-- The append in the `for p in pubs` loop: attach the faculty name to one
fetched publication. -/
def attachName (name : List Char) (p : PubRec) : OutRec :=
  { facultyName := name, title := p.title, journal := p.journal,
    year := p.year, citations := p.citations, link := p.link }

/-- One iteration of the main loop for one row: extract the user id, skip
the row (with a warning) when it is `None` or empty (`if not user_id`),
otherwise fetch and flatten that faculty's publications. -/
def perFaculty (oracle : List Char → Except (List Char) (List RawPub))
    (row : List Char × List Char) : List OutRec × List (List Char) :=
  match extract_scholar_userid row.2 with
  | none => ([], [skipMsg row.1])
  | some uid =>
    if uid.isEmpty then ([], [skipMsg row.1])
    else
      let fr := fetch_author_pubs uid row.2 (oracle uid) PAPERS_PER_FACULTY
      (fr.1.map (attachName row.1), fr.2)

/-- `main`: check the required columns (missing ⇒ print the discrepancy and
return with no file written), then run the per-row loop in input order,
accumulating records and warnings, and dump the accumulated records once.
The loop appends each row's records in row order, i.e. the accumulator is
the concatenation of the per-row record lists. -/
def mainRun (cols : List (List Char)) (rows : List (List Char × List Char))
    (oracle : List Char → Except (List Char) (List RawPub)) :
    Option (List OutRec) × List (List Char) :=
  if colsOk cols then
    (some ((rows.map fun r => (perFaculty oracle r).1).flatten),
     (rows.map fun r => (perFaculty oracle r).2).flatten)
  else
    (none, [missingColsMsg cols, ensureColsMsg])

/-! ## The output JSON

`json.dump(results, ...)` serializes the record list as a JSON array of
objects whose keys appear in dict insertion order.  The JSON value tree is
modelled by `JVal`; the text rendering/parsing of the `json` library is the
external boundary and is treated as the identity on well-formed trees. -/

/-- JSON value tree (the fragment the script can produce). -/
inductive JVal where
  | jNull
  | jInt (n : Int)
  | jStr (s : List Char)
  | jArr (elems : List JVal)
  | jObj (fields : List (List Char × JVal))

/-- JSON encoding of a modelled Python value. -/
def pyValToJ : PyVal → JVal
  | .vInt n => .jInt n
  | .vStr s => .jStr s
  | .vNone => .jNull

/-- Decoding inverse of `pyValToJ`. -/
def jToPyVal : JVal → Option PyVal
  | .jInt n => some (.vInt n)
  | .jStr s => some (.vStr s)
  | .jNull => some .vNone
  | _ => none

/-- The six keys of every serialized entry, in dict insertion order. -/
def outputKeys : List (List Char) :=
  ["Faculty Name".data, "Title".data, "Journal".data, "Year".data,
   "Citations".data, "Link".data]

/-- The field list of one serialized output record. -/
def encodeRec (r : OutRec) : List (List Char × JVal) :=
  [("Faculty Name".data, .jStr r.facultyName),
   ("Title".data, pyValToJ r.title),
   ("Journal".data, pyValToJ r.journal),
   ("Year".data, pyValToJ r.year),
   ("Citations".data, .jInt r.citations),
   ("Link".data, .jStr r.link)]

/-- The serialized output file as a JSON tree. -/
def serializeResults (rs : List OutRec) : JVal :=
  .jArr (rs.map fun r => .jObj (encodeRec r))

/-- Reading one entry back: requires exactly the six keys in order. -/
def decodeRec : JVal → Option OutRec
  | .jObj [(k₁, .jStr nm), (k₂, t), (k₃, j), (k₄, y), (k₅, .jInt c), (k₆, .jStr l)] =>
    if k₁ = "Faculty Name".data ∧ k₂ = "Title".data ∧ k₃ = "Journal".data ∧
       k₄ = "Year".data ∧ k₅ = "Citations".data ∧ k₆ = "Link".data then
      match jToPyVal t, jToPyVal j, jToPyVal y with
      | some t', some j', some y' =>
        some { facultyName := nm, title := t', journal := j', year := y',
               citations := c, link := l }
      | _, _, _ => none
    else none
  | _ => none

/-- Reading a list of serialized entries back. -/
def decodeEntries : List JVal → Option (List OutRec)
  | [] => some []
  | j :: js =>
    match decodeRec j, decodeEntries js with
    | some r, some rs => some (r :: rs)
    | _, _ => none

/-- Reading the whole output file back. -/
def parseResults : JVal → Option (List OutRec)
  | .jArr es => decodeEntries es
  | _ => none

/-! ## Specification predicates -/

/-- A publication list is sorted by year descending when no consecutive
pair is strictly increasing under the sort key `Year or 0`. -/
def pubsSortedDesc (l : List PubRec) : Prop :=
  List.Chain' (fun a b => keyLtB (sortKey a) (sortKey b) = false) l

/-- The sort-key comparison lifted to output records. -/
def outKeyLt (a b : OutRec) : Bool :=
  keyLtB (pyOr a.year (.vInt 0)) (pyOr b.year (.vInt 0))

/-- Year-descending sortedness of a run of output records. -/
def outSortedDesc (l : List OutRec) : Prop :=
  List.Chain' (fun a b => outKeyLt a b = false) l

/-- The externally supplied citation value (if any) is non-negative: it is
absent, `None`, a non-negative integer, or a string that `int` parses to a
non-negative value. -/
def citSuppliedNonneg : Option PyVal → Prop
  | none => True
  | some (.vInt n) => 0 ≤ n
  | some (.vStr s) => ∀ m, pyIntOfStr s = .ok m → 0 ≤ m
  | some .vNone => True

/-! ## Lemmas about the string helpers -/

theorem containsSub_infix_iff (s sub : List Char) :
    containsSub s sub = true ↔ sub <:+: s := by
  induction s with
  | nil => simp [containsSub, List.isEmpty_iff]
  | cons c rest ih =>
    simp [containsSub, ih, List.isPrefixOf_iff_prefix, List.infix_cons_iff]

theorem splitChar_ne_nil (c : Char) (s : List Char) : splitChar c s ≠ [] := by
  cases s with
  | nil => simp [splitChar]
  | cons x xs =>
    simp only [splitChar]
    split
    · simp
    · cases h : splitChar c xs <;> simp

theorem splitChar_head_isPre (c : Char) :
    ∀ (s h : List Char) (t : List (List Char)), splitChar c s = h :: t → h <+: s := by
  intro s
  induction s with
  | nil =>
    intro h t he
    simp only [splitChar] at he
    cases he
    exact List.nil_prefix
  | cons x xs ih =>
    intro h t he
    simp only [splitChar] at he
    by_cases hx : x = c
    · rw [if_pos hx] at he
      cases he
      exact List.nil_prefix
    · rw [if_neg hx] at he
      cases hsc : splitChar c xs with
      | nil => exact absurd hsc (splitChar_ne_nil c xs)
      | cons h₀ t₀ =>
        rw [hsc] at he
        cases he
        obtain ⟨u, hu⟩ := ih h₀ _ hsc
        exact ⟨u, by simp [← hu]⟩

theorem splitChar_infix_of_mem (c : Char) :
    ∀ (s : List Char), ∀ p ∈ splitChar c s, p <:+: s := by
  intro s
  induction s with
  | nil =>
    intro p hp
    simp [splitChar] at hp
    subst hp
    exact List.infix_rfl
  | cons x xs ih =>
    intro p hp
    simp only [splitChar] at hp
    by_cases hx : x = c
    · rw [if_pos hx] at hp
      rcases List.mem_cons.mp hp with rfl | hp₂
      · exact List.nil_infix
      · exact ((ih p hp₂).trans (List.infix_cons_iff.mpr (Or.inr List.infix_rfl)))
    · rw [if_neg hx] at hp
      cases hsc : splitChar c xs with
      | nil => exact absurd hsc (splitChar_ne_nil c xs)
      | cons h₀ t₀ =>
        rw [hsc] at hp
        rcases List.mem_cons.mp hp with rfl | hp₂
        · obtain ⟨u, hu⟩ := splitChar_head_isPre c xs h₀ t₀ hsc
          exact ⟨[], u, by simp [hu]⟩
        · have hmem : p ∈ splitChar c xs := by rw [hsc]; exact List.mem_cons_of_mem _ hp₂
          exact (ih p hmem).trans (List.infix_cons_iff.mpr (Or.inr List.infix_rfl))

theorem fallbackScan_eq_none_of_noSub {parts : List (List Char)}
    (h : ∀ p ∈ parts, containsSub p userEq = false) :
    fallbackScan parts = none := by
  induction parts with
  | nil => rfl
  | cons p rest ih =>
    have hp := h p (List.mem_cons_self p rest)
    simp only [fallbackScan, hp, Bool.false_eq_true, if_false]
    exact ih fun q hq => h q (List.mem_cons_of_mem p hq)

/-! ## Lemmas about `extract_scholar_userid` -/

theorem extract_some_of_param {url : List Char} {sp : UrlSplitResult}
    {v : List Char} (hok : urlsplitE url = .ok sp)
    (hq : qsLookup (parse_qsl sp.query) userKey = some v) :
    extract_scholar_userid url = some v := by
  simp [extract_scholar_userid, extract_userid_try, hok, hq]

theorem extract_none_of_no_param_no_sub {url : List Char}
    {sp : UrlSplitResult} (hok : urlsplitE url = .ok sp)
    (hq : qsLookup (parse_qsl sp.query) userKey = none)
    (hc : containsSub url userEq = false) :
    extract_scholar_userid url = none := by
  have hparts : ∀ p ∈ splitChar '?' url, containsSub p userEq = false := by
    intro p hp
    cases hcc : containsSub p userEq with
    | false => rfl
    | true =>
      exfalso
      have hinf : userEq <:+: p := (containsSub_infix_iff p userEq).mp hcc
      have hinf₂ : userEq <:+: url :=
        hinf.trans (splitChar_infix_of_mem '?' url p hp)
      have hct := (containsSub_infix_iff url userEq).mpr hinf₂
      rw [hct] at hc
      simp at hc
  simp [extract_scholar_userid, extract_userid_try, hok, hq,
    fallbackScan_eq_none_of_noSub hparts]

theorem extract_none_of_error {url e : List Char}
    (h : extract_userid_try url = .error e) :
    extract_scholar_userid url = none := by
  simp [extract_scholar_userid, h]

/-! ## Claim C3 -/

/-- The URL of the C3 counterexample: its query holds only the parameter
`xuser`, so it lacks a `user` parameter entirely, yet the raw-string
fallback of `extract_scholar_userid` matches the `user=` inside `xuser=`. -/
def c3CexUrl : List Char := "http://example.com/?xuser=abc".data

/-- Claim C3, counterexample: for `http://example.com/?xuser=abc` the parsed query
string has no `user` parameter, yet `extract_scholar_userid` returns
`"abc"` instead of the null the claim requires. -/
theorem extract_userid_xuser_counterexample :
    (urlsplitE c3CexUrl).toOption.map
        (fun sp => qsLookup (parse_qsl sp.query) userKey) = some none ∧
    extract_scholar_userid c3CexUrl = some "abc".data := by
  constructor
  · decide
  · decide

/-- Claim C3 (amended): for every profile URL that parses and whose query string
contains the `user` parameter, `extract_scholar_userid` returns exactly that
parameter's (first) value; for every URL that parses, lacks the parameter,
and does not contain the substring `user=` anywhere in the raw URL, it
returns null. -/
theorem extract_userid_param_or_null_amended (url : List Char)
    (sp : UrlSplitResult) (hok : urlsplitE url = Except.ok sp) :
    (∀ v, qsLookup (parse_qsl sp.query) userKey = some v →
      extract_scholar_userid url = some v) ∧
    (qsLookup (parse_qsl sp.query) userKey = none →
      containsSub url userEq = false →
      extract_scholar_userid url = none) :=
  ⟨fun _ hv => extract_some_of_param hok hv,
   fun hq hc => extract_none_of_no_param_no_sub hok hq hc⟩

/-- Witness for the amended C3 at two concrete URLs: one with a `user`
parameter and one with no `user` parameter and no `user=` substring. -/
theorem extract_userid_param_or_null_amended_witness :
    extract_scholar_userid
        "https://scholar.google.com/citations?user=ABC123".data =
      some "ABC123".data ∧
    extract_scholar_userid "https://example.com/page".data = none := by
  constructor
  · exact (extract_userid_param_or_null_amended
      "https://scholar.google.com/citations?user=ABC123".data _ rfl).1
      "ABC123".data (by decide)
  · exact (extract_userid_param_or_null_amended
      "https://example.com/page".data _ rfl).2 (by decide) (by decide)

/-! ## Claim C4 -/

/-- Claim C4: for every input string, `extract_scholar_userid` returns a result
(the identifier or null) and never raises: the `try` body either succeeds,
or its exception is caught and degenerates to a null result. -/
theorem extract_userid_total_never_raises (url : List Char) :
    (extract_scholar_userid url = none ∨
      ∃ v, extract_scholar_userid url = some v) ∧
    (∀ e, extract_userid_try url = Except.error e →
      extract_scholar_userid url = none) := by
  constructor
  · cases h : extract_scholar_userid url
    · exact Or.inl rfl
    · exact Or.inr ⟨_, rfl⟩
  · intro e he
    exact extract_none_of_error he

/-- A URL on which the URL parser raises (`ValueError: Invalid IPv6 URL`),
even though its raw text contains `user=`. -/
def c4BadUrl : List Char := "http://[x?user=abc".data

/-- Witness for C4: on the malformed URL the parser raises and
`extract_scholar_userid` returns null. -/
theorem extract_userid_total_never_raises_witness :
    extract_userid_try c4BadUrl = Except.error "Invalid IPv6 URL".data ∧
    extract_scholar_userid c4BadUrl = none := by
  refine ⟨rfl, ?_⟩
  exact (extract_userid_total_never_raises c4BadUrl).2
    "Invalid IPv6 URL".data rfl

/-! ## Lemmas about the sort -/

theorem strLtB_asymm : ∀ a b : List Char, strLtB a b = true → strLtB b a = false := by
  intro a
  induction a with
  | nil =>
    intro b h
    cases b with
    | nil => simp [strLtB] at h
    | cons x xs => simp [strLtB]
  | cons x xs ih =>
    intro b h
    cases b with
    | nil => simp [strLtB] at h
    | cons y ys =>
      simp only [strLtB] at h ⊢
      by_cases h₁ : x.toNat < y.toNat
      · have h₂ : ¬ y.toNat < x.toNat := by omega
        simp [h₁, h₂]
      · by_cases h₂ : y.toNat < x.toNat
        · simp [h₁, h₂] at h
        · simp [h₁, h₂] at h ⊢
          exact ih ys h

theorem keyLtB_asymm : ∀ x y : PyVal, keyLtB x y = true → keyLtB y x = false := by
  intro x y h
  cases x <;> cases y <;> simp [keyLtB] at h ⊢
  · omega
  · exact strLtB_asymm _ _ h

theorem mem_insertDesc {x y : PubRec} :
    ∀ {l : List PubRec}, y ∈ insertDesc x l ↔ y = x ∨ y ∈ l := by
  intro l
  induction l with
  | nil => simp [insertDesc]
  | cons z zs ih =>
    simp only [insertDesc]
    split
    · simp only [List.mem_cons, ih]
      tauto
    · simp [List.mem_cons]

theorem mem_insertionSortDesc {y : PubRec} :
    ∀ {l : List PubRec}, y ∈ insertionSortDesc l ↔ y ∈ l := by
  intro l
  induction l with
  | nil => simp [insertionSortDesc]
  | cons z zs ih =>
    simp only [insertionSortDesc, mem_insertDesc, ih, List.mem_cons]

theorem chain_insertDesc (x : PubRec) :
    ∀ l : List PubRec, pubsSortedDesc l → pubsSortedDesc (insertDesc x l) := by
  intro l
  induction l with
  | nil =>
    intro _
    simp [insertDesc, pubsSortedDesc]
  | cons y ys ih =>
    intro h
    have hys : pubsSortedDesc ys := h.tail
    simp only [insertDesc]
    by_cases hlt : keyLtB (sortKey x) (sortKey y) = true
    · rw [if_pos hlt]
      refine List.chain'_cons'.mpr ⟨?_, ih hys⟩
      intro z hz
      cases ys with
      | nil =>
        simp [insertDesc] at hz
        subst hz
        exact keyLtB_asymm _ _ hlt
      | cons w ws =>
        simp only [insertDesc] at hz
        by_cases hlw : keyLtB (sortKey x) (sortKey w) = true
        · rw [if_pos hlw] at hz
          simp at hz
          subst hz
          exact (List.chain'_cons.mp h).1
        · rw [if_neg hlw] at hz
          simp at hz
          subst hz
          exact keyLtB_asymm _ _ hlt
    · rw [if_neg hlt]
      refine List.chain'_cons.mpr ⟨?_, h⟩
      cases hcc : keyLtB (sortKey x) (sortKey y) with
      | false => rfl
      | true => exact absurd hcc hlt

theorem sorted_insertionSortDesc :
    ∀ l : List PubRec, pubsSortedDesc (insertionSortDesc l) := by
  intro l
  induction l with
  | nil => simp [insertionSortDesc, pubsSortedDesc]
  | cons x xs ih => exact chain_insertDesc x _ ih

theorem pySortPubsDesc_ok_mem {l s : List PubRec}
    (h : pySortPubsDesc l = .ok s) : ∀ x ∈ s, x ∈ l := by
  unfold pySortPubsDesc at h
  split at h
  · cases h
    exact fun x hx => hx
  · split at h
    · cases h
    · cases h
      exact fun x hx => mem_insertionSortDesc.mp hx

theorem pySortPubsDesc_ok_sorted {l s : List PubRec}
    (h : pySortPubsDesc l = .ok s) : pubsSortedDesc s := by
  unfold pySortPubsDesc at h
  split at h
  · cases h
    rename_i hlen
    cases l with
    | nil => simp [pubsSortedDesc]
    | cons a as =>
      cases as with
      | nil => simp [pubsSortedDesc]
      | cons b bs => simp at hlen
  · split at h
    · cases h
    · cases h
      exact sorted_insertionSortDesc l

/-! ## Lemmas about normalization and fetching -/

theorem normalizePub_ok_fields {uid surl : List Char} {pub : RawPub}
    {r : PubRec} (h : normalizePub uid surl pub = .ok r) :
    r.title = (dictGet (pub.bib.getD []) "title".data).getD (.vStr "N/A".data) ∧
    r.journal = rawVenueOf (pub.bib.getD []) ∧
    r.year = normalizeYear (rawYearOf (pub.bib.getD [])) ∧
    pyCitations (pub.num_citations.getD (.vInt 0)) = .ok r.citations ∧
    r.link = (if !uid.isEmpty then canonicalLink uid else surl) := by
  unfold normalizePub at h
  split at h
  · cases h
  · cases h
    rename_i heq
    exact ⟨rfl, rfl, rfl, heq, rfl⟩

theorem mapNormalize_ok_mem (uid surl : List Char) :
    ∀ (pubs : List RawPub) (l : List PubRec),
      mapNormalize uid surl pubs = .ok l →
      ∀ r ∈ l, ∃ p ∈ pubs, normalizePub uid surl p = .ok r := by
  intro pubs
  induction pubs with
  | nil =>
    intro l h r hr
    simp only [mapNormalize] at h
    cases h
    simp at hr
  | cons p ps ih =>
    intro l h r hr
    simp only [mapNormalize] at h
    cases hn : normalizePub uid surl p with
    | error e => rw [hn] at h; cases h
    | ok r₀ =>
      rw [hn] at h
      cases hm : mapNormalize uid surl ps with
      | error e => rw [hm] at h; cases h
      | ok rs =>
        rw [hm] at h
        cases h
        rcases List.mem_cons.mp hr with rfl | hr₂
        · exact ⟨p, List.mem_cons_self p ps, hn⟩
        · obtain ⟨q, hq, hqe⟩ := ih rs hm r hr₂
          exact ⟨q, List.mem_cons_of_mem p hq, hqe⟩

theorem fetchBody_ok {uid surl : List Char}
    {resp : Except (List Char) (List RawPub)} {n : Nat} {rl : List PubRec}
    (h : fetchBody uid surl resp n = .ok rl) :
    ∃ pubs structured sl,
      resp = .ok pubs ∧
      mapNormalize uid surl pubs = .ok structured ∧
      pySortPubsDesc structured = .ok sl ∧
      rl = sl.take n := by
  cases resp with
  | error e => simp [fetchBody] at h
  | ok pubs =>
    simp only [fetchBody] at h
    split at h
    next e hm => cases h
    next structured hm =>
      split at h
      next e hs => cases h
      next sl hs =>
        cases h
        exact ⟨pubs, structured, sl, rfl, hm, hs, rfl⟩

theorem fetch_error_eq (uid surl e : List Char) (n : Nat) :
    fetch_author_pubs uid surl (.error e) n = ([], [warnMsg uid e]) := rfl

theorem fetch_length_le (uid surl : List Char)
    (resp : Except (List Char) (List RawPub)) (n : Nat) :
    (fetch_author_pubs uid surl resp n).1.length ≤ n := by
  unfold fetch_author_pubs
  cases hb : fetchBody uid surl resp n with
  | error e => simp
  | ok rl =>
    obtain ⟨pubs, structured, sl, _, _, _, htake⟩ := fetchBody_ok hb
    simp [htake]

theorem fetch_sorted (uid surl : List Char)
    (resp : Except (List Char) (List RawPub)) (n : Nat) :
    pubsSortedDesc (fetch_author_pubs uid surl resp n).1 := by
  unfold fetch_author_pubs
  cases hb : fetchBody uid surl resp n with
  | error e => simp [pubsSortedDesc]
  | ok rl =>
    obtain ⟨pubs, structured, sl, _, _, hs, htake⟩ := fetchBody_ok hb
    subst htake
    exact (pySortPubsDesc_ok_sorted hs).take n

theorem fetch_mem {uid surl : List Char}
    {resp : Except (List Char) (List RawPub)} {n : Nat} {r : PubRec}
    (h : r ∈ (fetch_author_pubs uid surl resp n).1) :
    ∃ pubs, resp = .ok pubs ∧
      ∃ p ∈ pubs, normalizePub uid surl p = .ok r := by
  unfold fetch_author_pubs at h
  cases hb : fetchBody uid surl resp n with
  | error e => rw [hb] at h; simp at h
  | ok rl =>
    rw [hb] at h
    simp only at h
    obtain ⟨pubs, structured, sl, hresp, hm, hs, htake⟩ := fetchBody_ok hb
    subst htake
    have h₁ : r ∈ sl := List.take_subset n sl h
    have h₂ : r ∈ structured := pySortPubsDesc_ok_mem hs r h₁
    obtain ⟨p, hp, hpe⟩ := mapNormalize_ok_mem uid surl pubs structured hm r h₂
    exact ⟨pubs, hresp, p, hp, hpe⟩

theorem normalizeYear_nonNumeric {s : List Char} (hs : pyIsDigit s = false) :
    normalizeYear (.vStr s) = .vStr s := by
  simp [normalizeYear, pyStrOf, hs]

/-! ## Claim C2 -/

/-- Claim C2: for every user identifier, fallback URL and maximum count
`n`, the publication list returned by the Fetcher has length at most `n`,
is sorted by year descending (no consecutive pair strictly increasing under
the sort key `Year or 0`), and every returned record is the normalization
of a raw entry, with a non-numeric year value preserved as given rather
than coerced. -/
theorem fetch_sorted_bounded_preserving (uid surl : List Char)
    (resp : Except (List Char) (List RawPub)) (n : Nat) :
    (fetch_author_pubs uid surl resp n).1.length ≤ n ∧
    pubsSortedDesc (fetch_author_pubs uid surl resp n).1 ∧
    ∀ rec ∈ (fetch_author_pubs uid surl resp n).1,
      ∃ pubs, resp = .ok pubs ∧
        ∃ p ∈ pubs, normalizePub uid surl p = .ok rec ∧
          ∀ s, rawYearOf (p.bib.getD []) = .vStr s → pyIsDigit s = false →
            rec.year = .vStr s := by
  refine ⟨fetch_length_le uid surl resp n, fetch_sorted uid surl resp n, ?_⟩
  intro rec hrec
  obtain ⟨pubs, hresp, p, hp, hpe⟩ := fetch_mem hrec
  refine ⟨pubs, hresp, p, hp, hpe, ?_⟩
  intro s hys hnd
  have hy := (normalizePub_ok_fields hpe).2.2.1
  rw [hys] at hy
  rw [hy, normalizeYear_nonNumeric hnd]

/-- Concrete inputs for the C2 witness: a single raw publication whose year
is the non-numeric string `in press`. -/
def c2wUrl : List Char :=
  "https://scholar.google.com/citations?user=XYZ".data

def c2wPub : RawPub :=
  { bib := some [("title".data, .vStr "B".data),
                 ("pub_year".data, .vStr "in press".data)],
    num_citations := some (.vInt 2) }

def c2wRec : PubRec :=
  { title := .vStr "B".data, journal := .vStr [],
    year := .vStr "in press".data, citations := 2,
    link := canonicalLink "XYZ".data }

/-- Witness for C2 at a concrete fetch: the returned record keeps its
non-numeric year string unchanged. -/
theorem fetch_sorted_bounded_preserving_witness :
    c2wRec.year = PyVal.vStr "in press".data := by
  obtain ⟨pubs, hresp, p, hp, _, hpres⟩ :=
    (fetch_sorted_bounded_preserving "XYZ".data c2wUrl
      (Except.ok [c2wPub]) 5).2.2 c2wRec (by decide)
  cases hresp
  simp at hp
  subst hp
  exact hpres "in press".data (by decide) (by decide)

/-! ## Claim C5 -/

/-- Claim C5: the Fetcher's normalization defaults missing fields rather
than erroring: with no year field the output `Year` is 0, with no
venue/journal/publisher field the output `Journal` is the empty string, and
with no citation count the output `Citations` is 0. -/
theorem normalize_missing_fields_defaults (uid surl : List Char)
    (pub : RawPub) (rec : PubRec)
    (h : normalizePub uid surl pub = .ok rec) :
    (dictGet (pub.bib.getD []) "pub_year".data = none →
      dictGet (pub.bib.getD []) "year".data = none →
      rec.year = .vInt 0) ∧
    (dictGet (pub.bib.getD []) "venue".data = none →
      dictGet (pub.bib.getD []) "journal".data = none →
      dictGet (pub.bib.getD []) "publisher".data = none →
      rec.journal = .vStr []) ∧
    (pub.num_citations = none → rec.citations = 0) := by
  obtain ⟨_, hj, hy, hc, _⟩ := normalizePub_ok_fields h
  refine ⟨?_, ?_, ?_⟩
  · intro h₁ h₂
    rw [hy]
    simp only [rawYearOf, h₁, h₂]
    decide
  · intro h₁ h₂ h₃
    rw [hj]
    simp only [rawVenueOf, h₁, h₂, h₃]
    decide
  · intro h₁
    rw [h₁] at hc
    simp [pyCitations, pyTruthy] at hc
    omega

/-- Concrete inputs for the C5 witness: a raw publication with no fields at
all. -/
def c5wPub : RawPub := { bib := none, num_citations := none }

def c5wRec : PubRec :=
  { title := .vStr "N/A".data, journal := .vStr [], year := .vInt 0,
    citations := 0, link := canonicalLink "U".data }

/-- Witness for C5 on a publication with no year, venue or citation
fields. -/
theorem normalize_missing_fields_defaults_witness :
    c5wRec.year = PyVal.vInt 0 ∧ c5wRec.journal = PyVal.vStr [] ∧
    c5wRec.citations = 0 := by
  obtain ⟨h₁, h₂, h₃⟩ :=
    normalize_missing_fields_defaults "U".data "u".data c5wPub c5wRec
      (by decide)
  exact ⟨h₁ rfl rfl, h₂ rfl rfl rfl, h₃ rfl⟩

/-! ## Claim C9 -/

/-- The profile URL used by several concrete runs below. -/
def abcUrl : List Char :=
  "https://scholar.google.com/citations?user=ABC123".data

/-- A raw publication whose externally supplied citation count is the
negative integer `-3`. -/
def c9wPub : RawPub :=
  { bib := some [("title".data, .vStr "T".data),
                 ("pub_year".data, .vInt 2021)],
    num_citations := some (.vInt (-3)) }

/-- The output record the run produces for `c9wPub`: its `Citations` field
is `-3`. -/
def c9wRec : OutRec :=
  { facultyName := "A".data, title := .vStr "T".data, journal := .vStr [],
    year := .vInt 2021, citations := -3,
    link := canonicalLink "ABC123".data }

/-- Claim C9, counterexample: a run whose external source supplies a
negative citation count produces an `OutputRecord` with a negative
`Citations` field — the claimed invariant fails for an adversarial supplied
value. -/
theorem citations_negative_counterexample :
    (mainRun expectedCols [("A".data, abcUrl)]
      (fun _ => .ok [c9wPub])).1 = some [c9wRec] ∧
    c9wRec.citations < 0 := by
  constructor
  · decide
  · decide

/-- Claim C9 (amended): the `Citations` field of every normalized record is
non-negative provided the externally supplied citation value is absent,
`None`, a non-negative integer, or a string parsing to a non-negative
integer; the code passes a supplied negative integer through unchanged. -/
theorem citations_nonneg_amended (uid surl : List Char) (pub : RawPub)
    (rec : PubRec) (h : normalizePub uid surl pub = .ok rec)
    (hs : citSuppliedNonneg pub.num_citations) : 0 ≤ rec.citations := by
  have hc := (normalizePub_ok_fields h).2.2.2.1
  cases hnc : pub.num_citations with
  | none =>
    rw [hnc] at hc
    simp [pyCitations, pyTruthy] at hc
    omega
  | some v =>
    rw [hnc] at hc
    rw [hnc] at hs
    cases v with
    | vInt m =>
      simp only [Option.getD_some, pyCitations, pyTruthy] at hc
      by_cases hm : m = 0
      · subst hm
        simp at hc
        omega
      · simp only [citSuppliedNonneg] at hs
        simp [hm, pyInt] at hc
        omega
    | vStr s =>
      simp only [Option.getD_some, pyCitations, pyTruthy] at hc
      by_cases hse : s.isEmpty
      · simp [hse] at hc
        omega
      · simp only [citSuppliedNonneg] at hs
        simp [hse, pyInt] at hc
        exact hs rec.citations hc
    | vNone =>
      simp [pyCitations, pyTruthy] at hc
      omega

/-- Concrete inputs for the amended C9 witness. -/
def c9aPub : RawPub :=
  { bib := some [("title".data, .vStr "T".data),
                 ("pub_year".data, .vInt 2021)],
    num_citations := some (.vInt 11) }

def c9aRec : PubRec :=
  { title := .vStr "T".data, journal := .vStr [], year := .vInt 2021,
    citations := 11, link := canonicalLink "ABC123".data }

/-- Witness for the amended C9 at a concrete publication with a
non-negative supplied count. -/
theorem citations_nonneg_amended_witness : 0 ≤ c9aRec.citations :=
  citations_nonneg_amended "ABC123".data abcUrl c9aPub c9aRec (by decide)
    (by simp [c9aPub, citSuppliedNonneg])

/-! ## Claim C10 -/

/-- A raw publication with a clean integer year. -/
def c10Pub1 : RawPub :=
  { bib := some [("title".data, .vStr "P1".data),
                 ("pub_year".data, .vInt 2020)],
    num_citations := some (.vInt 4) }

/-- A raw publication with a non-numeric (preserved) string year. -/
def c10Pub2 : RawPub :=
  { bib := some [("title".data, .vStr "P2".data),
                 ("pub_year".data, .vStr "in press".data)],
    num_citations := none }

def c10Rec1 : PubRec :=
  { title := .vStr "P1".data, journal := .vStr [], year := .vInt 2020,
    citations := 4, link := canonicalLink "ABC123".data }

def c10Rec2 : PubRec :=
  { title := .vStr "P2".data, journal := .vStr [],
    year := .vStr "in press".data, citations := 0,
    link := canonicalLink "ABC123".data }

/-- Claim C10: an author whose publications yield a mix of integer and
non-numeric string years normalizes cleanly, but the year sort raises a
comparison `TypeError` that the catch-all handler turns into an empty list
with a warning — every publication of that faculty is dropped, including
the one with the clean integer year. -/
theorem mixed_year_types_drop_all :
    mapNormalize "ABC123".data abcUrl [c10Pub1, c10Pub2] =
      .ok [c10Rec1, c10Rec2] ∧
    pySortPubsDesc [c10Rec1, c10Rec2] =
      .error "TypeError: unsupported comparison between int and str".data ∧
    fetch_author_pubs "ABC123".data abcUrl (.ok [c10Pub1, c10Pub2]) 5 =
      ([], [warnMsg "ABC123".data
        "TypeError: unsupported comparison between int and str".data]) := by
  refine ⟨by decide, by decide, by decide⟩

/-! ## Lemmas about the main loop -/

theorem isEmpty_false_of_ne_nil {uid : List Char} (h : uid ≠ []) :
    uid.isEmpty = false := by
  cases hemp : uid.isEmpty with
  | false => rfl
  | true => exact absurd (List.isEmpty_iff.mp hemp) h

theorem perFaculty_mem {oracle : List Char → Except (List Char) (List RawPub)}
    {row : List Char × List Char} {rec : OutRec}
    (h : rec ∈ (perFaculty oracle row).1) :
    ∃ uid, extract_scholar_userid row.2 = some uid ∧ uid ≠ [] ∧
      ∃ p ∈ (fetch_author_pubs uid row.2 (oracle uid) PAPERS_PER_FACULTY).1,
        rec = attachName row.1 p := by
  unfold perFaculty at h
  cases he : extract_scholar_userid row.2 with
  | none => rw [he] at h; simp at h
  | some uid =>
    rw [he] at h
    by_cases hu : uid.isEmpty = true
    · simp [hu] at h
    · simp only [hu, Bool.false_eq_true, if_false] at h
      obtain ⟨p, hp, hrec⟩ := List.mem_map.mp h
      have huid : uid ≠ [] := fun hnil => hu (by simp [hnil])
      exact ⟨uid, rfl, huid, p, hp, hrec.symm⟩

theorem perFaculty_sorted
    (oracle : List Char → Except (List Char) (List RawPub))
    (row : List Char × List Char) :
    outSortedDesc (perFaculty oracle row).1 := by
  unfold perFaculty
  cases he : extract_scholar_userid row.2 with
  | none => simp [outSortedDesc]
  | some uid =>
    by_cases hu : uid.isEmpty = true
    · simp [hu, outSortedDesc]
    · simp only [hu, Bool.false_eq_true, if_false]
      simp only [outSortedDesc]
      rw [List.chain'_map]
      exact fetch_sorted uid row.2 (oracle uid) PAPERS_PER_FACULTY

theorem mainRun_fst_ok {cols : List (List Char)}
    {rows : List (List Char × List Char)}
    {oracle : List Char → Except (List Char) (List RawPub)}
    {rs : List OutRec} (h : (mainRun cols rows oracle).1 = some rs) :
    colsOk cols = true ∧
    rs = (rows.map fun r => (perFaculty oracle r).1).flatten := by
  unfold mainRun at h
  split at h
  next hc => simp at h; exact ⟨hc, h.symm⟩
  next hc => simp at h

/-! ## Claim C1 -/

/-- Claim C1: every `OutputRecord` of a run belongs to an input row whose
name is the record's own faculty name, and its `Link` field equals the
canonical profile URL built from that row's resolved user identifier —
never a per-publication URL; the fallback to the supplied profile URL is
unreachable because fetching only happens for a truthy (non-null,
non-empty) extracted identifier. -/
theorem outputRecords_link_canonical (cols : List (List Char))
    (rows : List (List Char × List Char))
    (oracle : List Char → Except (List Char) (List RawPub))
    (rs : List OutRec) (h : (mainRun cols rows oracle).1 = some rs) :
    ∀ rec ∈ rs, ∃ row ∈ rows, ∃ uid,
      extract_scholar_userid row.2 = some uid ∧ uid ≠ [] ∧
      rec.facultyName = row.1 ∧
      rec.link = canonicalLink uid := by
  obtain ⟨hc, hrs⟩ := mainRun_fst_ok h
  subst hrs
  intro rec hrec
  obtain ⟨sub, hsub, hrecsub⟩ := List.mem_flatten.mp hrec
  obtain ⟨row, hrow, hsubeq⟩ := List.mem_map.mp hsub
  subst hsubeq
  obtain ⟨uid, he, huid, p, hp, hrecp⟩ := perFaculty_mem hrecsub
  refine ⟨row, hrow, uid, he, huid, ?_, ?_⟩
  · subst hrecp
    rfl
  · subst hrecp
    obtain ⟨pubs, _, q, _, hqe⟩ := fetch_mem hp
    have hl := (normalizePub_ok_fields hqe).2.2.2.2
    have hemp := isEmpty_false_of_ne_nil huid
    simp only [attachName]
    rw [hl, hemp]
    rfl

/-- Concrete inputs for the C1 witness. -/
def c1wPub : RawPub :=
  { bib := some [("title".data, .vStr "W".data),
                 ("pub_year".data, .vInt 2019)],
    num_citations := some (.vInt 1) }

def c1wRec : OutRec :=
  { facultyName := "A".data, title := .vStr "W".data, journal := .vStr [],
    year := .vInt 2019, citations := 1,
    link := canonicalLink "ABC123".data }

/-- Witness for C1 on a concrete one-faculty run: the record carries that
row's faculty name and that row's canonical link. -/
theorem outputRecords_link_canonical_witness :
    ∃ row ∈ [("A".data, abcUrl)], ∃ uid,
      extract_scholar_userid row.2 = some uid ∧ uid ≠ [] ∧
      c1wRec.facultyName = row.1 ∧
      c1wRec.link = canonicalLink uid :=
  outputRecords_link_canonical expectedCols [("A".data, abcUrl)]
    (fun _ => .ok [c1wPub]) [c1wRec] (by decide) c1wRec (by decide)

/-! ## Claim C6 -/

/-- Claim C6: when a required column is missing, the run reports the
discrepancy (found versus expected column names), writes no output file
(the file component is `none`), and returns before fetching anything — the
outcome does not depend on the rows or on the external source at all. -/
theorem missing_columns_reports_and_skips (cols : List (List Char))
    (rows : List (List Char × List Char))
    (oracle : List Char → Except (List Char) (List RawPub))
    (h : colsOk cols = false) :
    mainRun cols rows oracle =
      (none, [missingColsMsg cols, ensureColsMsg]) ∧
    ∀ rows₂ oracle₂, mainRun cols rows₂ oracle₂ = mainRun cols rows oracle := by
  constructor
  · simp [mainRun, h]
  · intro rows₂ oracle₂
    simp [mainRun, h]

/-- Witness for C6: a spreadsheet missing the profile-URL column halts with
the two diagnostics and no output. -/
theorem missing_columns_reports_and_skips_witness :
    mainRun ["Faculty Name".data] [] (fun _ => .ok []) =
      (none, [missingColsMsg ["Faculty Name".data], ensureColsMsg]) :=
  (missing_columns_reports_and_skips ["Faculty Name".data] []
    (fun _ => .ok []) (by decide)).1

/-! ## Claim C7 -/

/-- Claim C7: when the external source fails for one faculty's identifier,
the Fetcher returns the empty list together with a warning naming the user,
and the overall run produces exactly the output of the run without that
faculty — the other faculty are unaffected. -/
theorem fetch_failure_isolated (cols : List (List Char))
    (rows₁ rows₂ : List (List Char × List Char))
    (name url uid e : List Char)
    (oracle : List Char → Except (List Char) (List RawPub))
    (hcols : colsOk cols = true)
    (huid : extract_scholar_userid url = some uid) (hne : uid ≠ [])
    (herr : oracle uid = .error e) :
    fetch_author_pubs uid url (oracle uid) PAPERS_PER_FACULTY =
      ([], [warnMsg uid e]) ∧
    (mainRun cols (rows₁ ++ (name, url) :: rows₂) oracle).1 =
      (mainRun cols (rows₁ ++ rows₂) oracle).1 ∧
    warnMsg uid e ∈ (mainRun cols (rows₁ ++ (name, url) :: rows₂) oracle).2 := by
  have hfetch : fetch_author_pubs uid url (oracle uid) PAPERS_PER_FACULTY =
      ([], [warnMsg uid e]) := by
    rw [herr]
    exact fetch_error_eq uid url e PAPERS_PER_FACULTY
  have hemp := isEmpty_false_of_ne_nil hne
  have hpf : perFaculty oracle (name, url) = ([], [warnMsg uid e]) := by
    simp [perFaculty, huid, hemp, hfetch]
  refine ⟨hfetch, ?_, ?_⟩
  · simp [mainRun, hcols, hpf]
  · simp [mainRun, hcols, hpf]

/-- Witness for C7: a failing external call for a concrete identifier
yields the empty list and the identifying warning. -/
theorem fetch_failure_isolated_witness :
    fetch_author_pubs "ABC123".data abcUrl
        (Except.error "network down".data) PAPERS_PER_FACULTY =
      ([], [warnMsg "ABC123".data "network down".data]) :=
  (fetch_failure_isolated expectedCols [] [] "A".data abcUrl "ABC123".data
    "network down".data (fun _ => Except.error "network down".data)
    (by decide) (by decide) (by decide) rfl).1

/-! ## Claim C8 -/

theorem decodeRec_encodeRec (r : OutRec) :
    decodeRec (.jObj (encodeRec r)) = some r := by
  cases r with
  | mk nm t j y c l => cases t <;> cases j <;> cases y <;> rfl

theorem decodeEntries_encode (rs : List OutRec) :
    decodeEntries (rs.map fun r => .jObj (encodeRec r)) = some rs := by
  induction rs with
  | nil => rfl
  | cons r rest ih => simp [decodeEntries, decodeRec_encodeRec, ih]

theorem parse_serialize (rs : List OutRec) :
    parseResults (serializeResults rs) = some rs := by
  simp [parseResults, serializeResults, decodeEntries_encode]

/-- Concrete inputs for the C8 counterexample and witness. -/
def c8wPub : RawPub :=
  { bib := some [("title".data, .vStr "S".data),
                 ("pub_year".data, .vInt 2022)],
    num_citations := some (.vInt 3) }

def c8wRec : OutRec :=
  { facultyName := "A".data, title := .vStr "S".data, journal := .vStr [],
    year := .vInt 2022, citations := 3,
    link := canonicalLink "ABC123".data }

/-- Claim C8, counterexample: an entry of the serialized output of a
concrete run has exactly six keys, not the five the claim states (the
faculty name is a sixth key joined onto the five publication fields). -/
theorem output_entry_six_keys_counterexample :
    (mainRun expectedCols [("A".data, abcUrl)]
      (fun _ => .ok [c8wPub])).1 = some [c8wRec] ∧
    ((encodeRec c8wRec).map Prod.fst).length = 6 ∧
    ¬(((encodeRec c8wRec).map Prod.fst).length = 5) := by
  refine ⟨by decide, by decide, by decide⟩

/-- Claim C8 (amended): the serialized output JSON is a sequence of objects
with exactly the six specified keys per entry (`Faculty Name`, `Title`,
`Journal`, `Year`, `Citations`, `Link`, in dict insertion order), ordered
by faculty input order and publication year descending within each faculty,
and writing then reading it round-trips to that sequence. -/
theorem output_roundtrip_order_amended (cols : List (List Char))
    (rows : List (List Char × List Char))
    (oracle : List Char → Except (List Char) (List RawPub))
    (rs : List OutRec) (h : (mainRun cols rows oracle).1 = some rs) :
    parseResults (serializeResults rs) = some rs ∧
    (∀ rec ∈ rs, (encodeRec rec).map Prod.fst = outputKeys) ∧
    rs = (rows.map fun r => (perFaculty oracle r).1).flatten ∧
    ∀ row ∈ rows, outSortedDesc (perFaculty oracle row).1 := by
  obtain ⟨hc, hrs⟩ := mainRun_fst_ok h
  exact ⟨parse_serialize rs, fun rec _ => rfl, hrs,
    fun row _ => perFaculty_sorted oracle row⟩

/-- Witness for the amended C8 on a concrete run. -/
theorem output_roundtrip_order_amended_witness :
    parseResults (serializeResults [c8wRec]) = some [c8wRec] :=
  (output_roundtrip_order_amended expectedCols [("A".data, abcUrl)]
    (fun _ => .ok [c8wPub]) [c8wRec] (by decide)).1

end FacultyPubs

